import Mathlib

/-!
Verification of the NeedForSpeed numerics core: finite-difference derivative
operators, the mixed-derivative composition, grid generation and the
Black-Scholes PDE coefficient generator.  Real arithmetic of the C++ source
(`double`) is embedded as exact rational arithmetic (`ℚ`).
-/

namespace NFS

/-! ### Grid generation (src/Numerics/grid.cpp, `grid::uniform`) -/

/-- Embedding of `grid::uniform(x_min, x_max, n_points)`:
`dx = (x_max - x_min) / (n_points - 1)`, `grid[i] = dx * i + x_min`. -/
def grid.uniform (x_min x_max : ℚ) (n_points : ℕ) : List ℚ :=
  let dx : ℚ := (x_max - x_min) / ((n_points : ℚ) - 1)
  (List.range n_points).map (fun i : ℕ => dx * (i : ℚ) + x_min)

/-! ### PDE coefficient generator (src/Numerics/grid.cpp,
`bs::pde::generator::prefactor`) -/

/-- Embedding of `bs::pde::generator::prefactor(rate, sigma, spatial_grid)`:
three parallel
sequences over the grid with entries `-rate`, `rate * grid[i]` and
`0.5 * (sigma * grid[i])^2`. -/
def bs.pde.generator.prefactor (rate sigma : ℚ) (spatial_grid : List ℚ) :
    List (List ℚ) :=
  [spatial_grid.map (fun _ => -rate),
   spatial_grid.map (fun s => rate * s),
   spatial_grid.map (fun s => (1/2 : ℚ) * (sigma * s)^2)]

/-! ### 1-D operator interface and the MixedDerivative template
(src/Numerics/derivatives.h) -/

/-- Modelled from the spec: the band-diagonal operator classes
(`TriDiagonal`, `PentaDiagonal`, declared in band_diagonal_matrix.h, which is
not among the verified sources).  The `MixedDerivative` template consumes only
`order()` and `action(vector) -> vector`, the capability interface prescribed
in spec §9. -/
structure Op where
  order : ℕ
  action : List ℚ → List ℚ

/-- State of a `MixedDerivative<T1, T2>` instance: the two stored 1-D
operators and the prefactor field. -/
structure MixedDerivative where
  d1dx1 : Op
  d1dy1 : Op
  prefactors : List ℚ

/-- The `MixedDerivative` constructor: stores the two 1-D operators and sets
`prefactors` to `n_x * n_y` copies of `1.0`. -/
def MixedDerivative.make (d1dx1 d1dy1 : Op) : MixedDerivative :=
  { d1dx1 := d1dx1, d1dy1 := d1dy1,
    prefactors := List.replicate (d1dx1.order * d1dy1.order) 1 }

/-- The C++ loop `for (i = 0; i != n; ++i) p[i] = f(i);` as sequential
in-bounds writes (`List.set` at an out-of-range index is a no-op, matching
that the C++ loops only write indices the caller keeps in range). -/
def setLoop (p : List ℚ) (f : ℕ → ℚ) : ℕ → List ℚ
  | 0 => p
  | n + 1 => (setLoop p f n).set n (f n)

/-- Embedding of `set_prefactors(const double scalar)`: writes `scalar` into
`prefactors[i]` for every `i < prefactors.size()`. -/
def MixedDerivative.set_prefactors_scalar (m : MixedDerivative) (scalar : ℚ) :
    MixedDerivative :=
  { m with prefactors :=
      setLoop m.prefactors (fun _ => scalar) m.prefactors.length }

/-- Inner loop of `set_prefactors(coef_x, coef_y)`:
`for (j = 0; j != coef_y.size(); ++j) prefactors[i] = coef_x[i] * coef_y[j];`
-- note the write target is `prefactors[i]`, not `prefactors[index]`
(the `index` counter of the source is incremented but never read, so it is
dropped here). -/
def innerXY (p : List ℚ) (i : ℕ) (cxi : ℚ) (cy : List ℚ) : ℕ → List ℚ
  | 0 => p
  | j + 1 => (innerXY p i cxi cy j).set i (cxi * cy.getD j 0)

/-- Outer loop of `set_prefactors(coef_x, coef_y)`:
`for (i = 0; i != coef_x.size(); ++i) { inner loop over j }`. -/
def outerXY (p : List ℚ) (cx cy : List ℚ) : ℕ → List ℚ
  | 0 => p
  | i + 1 => innerXY (outerXY p cx cy i) i (cx.getD i 0) cy cy.length

/-- Embedding of `set_prefactors(coef_x, coef_y)` (the outer-product
overload), translated
loop by loop from derivatives.h lines 142-152. -/
def MixedDerivative.set_prefactors_xy (m : MixedDerivative)
    (coef_x coef_y : List ℚ) : MixedDerivative :=
  { m with prefactors := outerXY m.prefactors coef_x coef_y coef_x.length }

/-- Embedding of `set_prefactors(factors)` (the flat overload):
`for (i = 0; i != factors.size(); ++i) prefactors[i] = factors[i];`. -/
def MixedDerivative.set_prefactors_flat (m : MixedDerivative)
    (factors : List ℚ) : MixedDerivative :=
  { m with prefactors :=
      setLoop m.prefactors (fun i => factors.getD i 0) factors.length }

/-- The x-slice at row `ix` of a flattened (`ix * n_y + iy`) 2-D field: the
contiguous chunk of `n_y` consecutive entries. -/
def xSlice (ny : ℕ) (f : List ℚ) (ix : ℕ) : List ℚ :=
  (f.drop (ix * ny)).take ny

/-- Modelled from the spec: the y-direction pass of `action_2d` (declared in
utility.h, not among the verified sources); spec §4.3: "applies the y-axis
1-D operator along the y-direction to every x-slice". -/
def applyAlongY (op : Op) (nx ny : ℕ) (f : List ℚ) : List ℚ :=
  ((List.range nx).map (fun ix => op.action (xSlice ny f ix))).flatten

/-- The y-slice at column `iy` of a flattened 2-D field: the stride-`n_y`
subsequence `f[ix * n_y + iy]` for `ix = 0, ..., n_x - 1`. -/
def ySlice (nx ny : ℕ) (f : List ℚ) (iy : ℕ) : List ℚ :=
  (List.range nx).map (fun ix => f.getD (ix * ny + iy) 0)

/-- Modelled from the spec: the x-direction pass of `action_2d` (declared in
utility.h, not among the verified sources); spec §4.3: "applies the x-axis
1-D operator along the x-direction to every y-slice", scattering each
transformed column back to the flattened layout. -/
def applyAlongX (op : Op) (nx ny : ℕ) (f : List ℚ) : List ℚ :=
  (List.range (nx * ny)).map
    (fun i => (op.action (ySlice nx ny f (i % ny))).getD (i / ny) 0)

/-- Embedding of `MixedDerivative::d2dxdy(func)`: apply the y operator along y, the x
operator along x, then multiply by the prefactor field
(`func[i] *= prefactors[i]` for `i < n_x * n_y`).  The length guard is
modelled from the spec (§4.3 precondition / §7: a mismatched vector length
passed to `d2dxdy` must fail as a contract violation; the check lives in the
missing utility.h), so the result is an `Option`. -/
def MixedDerivative.d2dxdy (m : MixedDerivative) (func : List ℚ) :
    Option (List ℚ) :=
  let n_x := m.d1dx1.order
  let n_y := m.d1dy1.order
  if func.length = n_x * n_y then
    let f1 := applyAlongY m.d1dy1 n_x n_y func
    let f2 := applyAlongX m.d1dx1 n_x n_y f1
    some ((List.range (n_x * n_y)).map
      (fun i => f2.getD i 0 * m.prefactors.getD i 0))
  else none

/-- One call to any of the three `set_prefactors` overloads. -/
inductive SetCmd where
  | scalar (s : ℚ)
  | outer (cx cy : List ℚ)
  | flat (fs : List ℚ)

/-- Execute one `set_prefactors` call on a `MixedDerivative` instance. -/
def applySet (m : MixedDerivative) : SetCmd → MixedDerivative
  | .scalar s => m.set_prefactors_scalar s
  | .outer cx cy => m.set_prefactors_xy cx cy
  | .flat fs => m.set_prefactors_flat fs

/-- The same instance with its prefactor field reset to all ones (the value
the constructor gives it), isolating the underlying derivative action. -/
def withUnitPrefactors (m : MixedDerivative) : MixedDerivative :=
  { m with prefactors := List.replicate (m.d1dx1.order * m.d1dy1.order) 1 }

/-- Modelled from the spec: `d1dx1::uniform::c2b1` (declared in
derivatives.h, implementation not among the verified sources).  Spec §4.2/§8:
uniform spacing `h`; interior rows use the 2nd-order central difference
`(v[i+1] - v[i-1]) / (2h)`; row 0 uses the 1st-order forward difference
`(v[1] - v[0]) / h`; the last row uses the mirrored 1st-order backward
difference `(v[n-1] - v[n-2]) / h`. -/
def d1dx1.uniform.c2b1 (grid : List ℚ) : Op :=
  { order := grid.length,
    action := fun v =>
      (List.range grid.length).map (fun i =>
        if i = 0 then
          (v.getD 1 0 - v.getD 0 0) / (grid.getD 1 0 - grid.getD 0 0)
        else if i = grid.length - 1 then
          (v.getD (grid.length - 1) 0 - v.getD (grid.length - 2) 0)
            / (grid.getD 1 0 - grid.getD 0 0)
        else
          (v.getD (i + 1) 0 - v.getD (i - 1) 0)
            / (2 * (grid.getD 1 0 - grid.getD 0 0))) }

end NFS

/-- Claim C2: `bs::pde::generator::prefactor(r, sigma, grid)` returns exactly
three sequences, each of length `n = grid.length`, with, for every `i < n`,
first entry `-r`, second entry `r * grid[i]`, third entry
`0.5 * sigma^2 * grid[i]^2`. -/
theorem claim_C2_prefactor (r sigma : ℚ) (grid : List ℚ) :
    (NFS.bs.pde.generator.prefactor r sigma grid).length = 3 ∧
    (∀ row ∈ NFS.bs.pde.generator.prefactor r sigma grid,
      row.length = grid.length) ∧
    (∀ i, i < grid.length →
      ((NFS.bs.pde.generator.prefactor r sigma grid).getD 0 []).getD i 0
          = -r ∧
      ((NFS.bs.pde.generator.prefactor r sigma grid).getD 1 []).getD i 0
          = r * grid.getD i 0 ∧
      ((NFS.bs.pde.generator.prefactor r sigma grid).getD 2 []).getD i 0
          = (1/2 : ℚ) * sigma^2 * (grid.getD i 0)^2) := by
  refine ⟨rfl, ?_, ?_⟩
  · intro row hrow
    simp only [NFS.bs.pde.generator.prefactor, List.mem_cons,
      List.not_mem_nil, or_false] at hrow
    rcases hrow with h | h | h <;> subst h <;> simp
  · intro i hi
    have hx : grid[i]? = some grid[i] := List.getElem?_eq_getElem hi
    refine ⟨?_, ?_, ?_⟩ <;>
      simp only [NFS.bs.pde.generator.prefactor, List.getD_eq_getElem?_getD,
        List.getElem?_cons_zero, List.getElem?_cons_succ, Option.getD_some,
        List.getElem?_map, hx, Option.map_some']
    ring

/-- Witness for C2: the spec scenario `rate = 0.05`, `sigma = 0.2`,
`grid = [50, 100, 150]`, checked at index 2: the three coefficient entries are
`-0.05`, `7.5` and `450`. -/
theorem claim_C2_prefactor_witness :
    (2 : ℕ) < ([50, 100, 150] : List ℚ).length ∧
    (((NFS.bs.pde.generator.prefactor (1/20) (1/5) [50, 100, 150]).getD 0
        []).getD 2 0 = -(1/20) ∧
     ((NFS.bs.pde.generator.prefactor (1/20) (1/5) [50, 100, 150]).getD 1
        []).getD 2 0 = (1/20) * (([50, 100, 150] : List ℚ).getD 2 0) ∧
     ((NFS.bs.pde.generator.prefactor (1/20) (1/5) [50, 100, 150]).getD 2
        []).getD 2 0
        = (1/2 : ℚ) * (1/5)^2 * (([50, 100, 150] : List ℚ).getD 2 0)^2) :=
  ⟨by decide, (claim_C2_prefactor (1/20) (1/5) [50, 100, 150]).2.2 2
    (by decide)⟩

/-- Claim C10: `grid::uniform(x_min, x_max, n_points)` with `n_points ≥ 2`
returns exactly `n_points` entries, entry `i` equal to
`x_min + i * (x_max - x_min) / (n_points - 1)`; entry 0 equals `x_min`, and
when `x_min < x_max` consecutive entries strictly increase. -/
theorem claim_C10_grid_uniform (x_min x_max : ℚ) (n_points : ℕ)
    (hn : 2 ≤ n_points) :
    (NFS.grid.uniform x_min x_max n_points).length = n_points ∧
    (∀ i, i < n_points →
      (NFS.grid.uniform x_min x_max n_points).getD i 0
        = x_min + (i : ℚ) * (x_max - x_min) / ((n_points : ℚ) - 1)) ∧
    (NFS.grid.uniform x_min x_max n_points).getD 0 0 = x_min ∧
    (x_min < x_max → ∀ i, i + 1 < n_points →
      (NFS.grid.uniform x_min x_max n_points).getD i 0
        < (NFS.grid.uniform x_min x_max n_points).getD (i + 1) 0) := by
  have hlen : (NFS.grid.uniform x_min x_max n_points).length = n_points := by
    simp only [NFS.grid.uniform, List.length_map, List.length_range]
  have hentry : ∀ i, i < n_points →
      (NFS.grid.uniform x_min x_max n_points).getD i 0
        = x_min + (i : ℚ) * (x_max - x_min) / ((n_points : ℚ) - 1) := by
    intro i hi
    simp only [NFS.grid.uniform, List.getD_eq_getElem?_getD, List.getElem?_map,
      List.getElem?_range hi, Option.map_some', Option.getD_some]
    ring
  refine ⟨hlen, hentry, ?_, ?_⟩
  · have h0 := hentry 0 (by omega)
    simpa using h0
  · intro hlt i hi
    have h1 := hentry i (by omega)
    have h2 := hentry (i + 1) (by omega)
    rw [h1, h2]
    have hden : (0 : ℚ) < (n_points : ℚ) - 1 := by
      have : (2 : ℚ) ≤ (n_points : ℚ) := by exact_mod_cast hn
      linarith
    have hstep : (0 : ℚ) < (x_max - x_min) / ((n_points : ℚ) - 1) :=
      div_pos (by linarith) hden
    have hcast : (i : ℚ) < ((i + 1 : ℕ) : ℚ) := by push_cast; linarith
    have := mul_lt_mul_of_pos_right hcast hstep
    rw [mul_div_assoc, mul_div_assoc] at *
    linarith

/-- Witness for C10: `grid::uniform(0, 4, 5)` is `[0, 1, 2, 3, 4]` of length 5,
entry 3 equals `0 + 3 * (4 - 0) / (5 - 1) = 3`, entry 0 equals 0, and entry 1
is strictly below entry 2. -/
theorem claim_C10_grid_uniform_witness :
    (2 ≤ 5 ∧
      (NFS.grid.uniform 0 4 5).length = 5 ∧
      (NFS.grid.uniform 0 4 5).getD 3 0
        = 0 + (3 : ℚ) * (4 - 0) / ((5 : ℚ) - 1) ∧
      (NFS.grid.uniform 0 4 5).getD 0 0 = 0 ∧
      (NFS.grid.uniform 0 4 5).getD 1 0 < (NFS.grid.uniform 0 4 5).getD 2 0) := by
  have h := claim_C10_grid_uniform 0 4 5 (by decide)
  exact ⟨by decide, h.1, h.2.1 3 (by decide), h.2.2.1,
    h.2.2.2 (by norm_num) 1 (by decide)⟩

/-! ### Loop characterization lemmas -/

theorem setLoop_length (p : List ℚ) (f : ℕ → ℚ) (n : ℕ) :
    (NFS.setLoop p f n).length = p.length := by
  induction n with
  | zero => rfl
  | succ n ih => rw [NFS.setLoop, List.length_set, ih]

theorem setLoop_getElem? (p : List ℚ) (f : ℕ → ℚ) (n k : ℕ) :
    (NFS.setLoop p f n)[k]? =
      if k < n then (p[k]?).map (fun _ => f k) else p[k]? := by
  induction n with
  | zero => simp [NFS.setLoop]
  | succ n ih =>
    rw [NFS.setLoop]
    by_cases hk : k = n
    · subst hk
      rw [List.getElem?_set_self', ih]
      simp only [Nat.lt_irrefl, if_false, Nat.lt_succ_self, if_true]
      rfl
    · rw [List.getElem?_set_ne (Ne.symm hk), ih]
      by_cases hlt : k < n
      · simp [hlt, Nat.lt_succ_of_lt hlt]
      · have hlt' : ¬ k < n + 1 := by omega
        simp [hlt, hlt']

theorem innerXY_length (p : List ℚ) (i : ℕ) (c : ℚ) (cy : List ℚ) (m : ℕ) :
    (NFS.innerXY p i c cy m).length = p.length := by
  induction m with
  | zero => rfl
  | succ m ih => rw [NFS.innerXY, List.length_set, ih]

theorem innerXY_getElem? (p : List ℚ) (i : ℕ) (c : ℚ) (cy : List ℚ)
    (m k : ℕ) :
    (NFS.innerXY p i c cy m)[k]? =
      if 0 < m ∧ k = i then (p[k]?).map (fun _ => c * cy.getD (m - 1) 0)
      else p[k]? := by
  induction m with
  | zero => simp [NFS.innerXY]
  | succ m ih =>
    rw [NFS.innerXY]
    by_cases hk : k = i
    · subst hk
      rw [List.getElem?_set_self', ih]
      by_cases hm : 0 < m
      · cases hp : p[k]? <;> simp [hp, hm]
      · cases hp : p[k]? <;> simp [hp, hm]
    · rw [List.getElem?_set_ne (fun h => hk h.symm), ih]
      simp [hk]

theorem outerXY_length (p : List ℚ) (cx cy : List ℚ) (n : ℕ) :
    (NFS.outerXY p cx cy n).length = p.length := by
  induction n with
  | zero => rfl
  | succ n ih => rw [NFS.outerXY, innerXY_length, ih]

theorem outerXY_getElem? (p : List ℚ) (cx cy : List ℚ) (n k : ℕ) :
    (NFS.outerXY p cx cy n)[k]? =
      if k < n ∧ 0 < cy.length then
        (p[k]?).map (fun _ => cx.getD k 0 * cy.getD (cy.length - 1) 0)
      else p[k]? := by
  induction n with
  | zero => simp [NFS.outerXY]
  | succ n ih =>
    rw [NFS.outerXY, innerXY_getElem?, ih]
    by_cases hk : k = n
    · subst hk
      have hn : ¬ k < k := by omega
      have hk1 : k < k + 1 := by omega
      by_cases hcy : 0 < cy.length
      · simp [hn, hk1, hcy]
      · simp [hn, hk1, hcy]
    · by_cases hlt : k < n
      · have hk1 : k < n + 1 := by omega
        simp [hk, hlt, hk1]
      · have hk1 : ¬ k < n + 1 := by omega
        simp [hk, hlt, hk1]

/-- Claim C5: the `MixedDerivative` constructor produces a prefactor field of
exactly `n_x * n_y` entries, every one equal to `1.0`. -/
theorem claim_C5_constructor_unit_prefactors (ox oy : NFS.Op) :
    (NFS.MixedDerivative.make ox oy).prefactors.length = ox.order * oy.order ∧
    ∀ i, i < ox.order * oy.order →
      (NFS.MixedDerivative.make ox oy).prefactors.getD i 0 = 1 := by
  constructor
  · simp [NFS.MixedDerivative.make]
  · intro i hi
    simp [NFS.MixedDerivative.make, List.getD_eq_getElem?_getD,
      List.getElem?_replicate_of_lt hi]

/-- Witness for C5: a 2x3 instance has six prefactor entries and entry 4
equals 1. -/
theorem claim_C5_constructor_unit_prefactors_witness :
    ((NFS.MixedDerivative.make ⟨2, id⟩ ⟨3, id⟩).prefactors.length
        = (NFS.Op.mk 2 id).order * (NFS.Op.mk 3 id).order) ∧
    (4 < (NFS.Op.mk 2 id).order * (NFS.Op.mk 3 id).order ∧
      (NFS.MixedDerivative.make ⟨2, id⟩ ⟨3, id⟩).prefactors.getD 4 0 = 1) :=
  ⟨(claim_C5_constructor_unit_prefactors ⟨2, id⟩ ⟨3, id⟩).1,
   by decide,
   (claim_C5_constructor_unit_prefactors ⟨2, id⟩ ⟨3, id⟩).2 4 (by decide)⟩

/-- Claim C8: after `set_prefactors(scalar)`, every one of the `n_x * n_y`
prefactor entries equals the scalar (the prefactor field has size
`n_x * n_y`, as the constructor and all setters maintain). -/
theorem claim_C8_scalar_prefactors (m : NFS.MixedDerivative) (s : ℚ)
    (hlen : m.prefactors.length = m.d1dx1.order * m.d1dy1.order) :
    (m.set_prefactors_scalar s).prefactors.length
        = m.d1dx1.order * m.d1dy1.order ∧
    ∀ i, i < m.d1dx1.order * m.d1dy1.order →
      (m.set_prefactors_scalar s).prefactors.getD i 0 = s := by
  constructor
  · rw [NFS.MixedDerivative.set_prefactors_scalar, setLoop_length, hlen]
  · intro i hi
    have hi' : i < m.prefactors.length := by omega
    rw [NFS.MixedDerivative.set_prefactors_scalar, List.getD_eq_getElem?_getD,
      setLoop_getElem?]
    simp [hi', List.getElem?_eq_getElem hi']

/-- Witness for C8: on a 2x2 instance with unit prefactors, setting the
scalar 7 yields four entries and entry 3 equals 7. -/
theorem claim_C8_scalar_prefactors_witness :
    ((NFS.MixedDerivative.make ⟨2, id⟩ ⟨2, id⟩).prefactors.length
        = (NFS.MixedDerivative.make ⟨2, id⟩ ⟨2, id⟩).d1dx1.order
          * (NFS.MixedDerivative.make ⟨2, id⟩ ⟨2, id⟩).d1dy1.order) ∧
    (((NFS.MixedDerivative.make ⟨2, id⟩ ⟨2, id⟩).set_prefactors_scalar
        7).prefactors.length
        = (NFS.MixedDerivative.make ⟨2, id⟩ ⟨2, id⟩).d1dx1.order
          * (NFS.MixedDerivative.make ⟨2, id⟩ ⟨2, id⟩).d1dy1.order ∧
      ((NFS.MixedDerivative.make ⟨2, id⟩ ⟨2, id⟩).set_prefactors_scalar
        7).prefactors.getD 3 0 = 7) :=
  ⟨by decide,
   (claim_C8_scalar_prefactors (NFS.MixedDerivative.make ⟨2, id⟩ ⟨2, id⟩) 7
      (by decide)).1,
   (claim_C8_scalar_prefactors (NFS.MixedDerivative.make ⟨2, id⟩ ⟨2, id⟩) 7
      (by decide)).2 3 (by decide)⟩

/-- Claim C9: `set_prefactors(factors)` with `factors.length() = m` smaller
than the prefactor field overwrites exactly entries `0 .. m-1` with the
entries of `factors` and leaves every entry at index `>= m` unchanged. -/
theorem claim_C9_flat_partial_overwrite (m : NFS.MixedDerivative)
    (factors : List ℚ) (hlt : factors.length < m.prefactors.length) :
    (m.set_prefactors_flat factors).prefactors.length
        = m.prefactors.length ∧
    (∀ i, i < factors.length →
      (m.set_prefactors_flat factors).prefactors.getD i 0
        = factors.getD i 0) ∧
    (∀ i, factors.length ≤ i →
      (m.set_prefactors_flat factors).prefactors[i]? = m.prefactors[i]?) := by
  refine ⟨?_, ?_, ?_⟩
  · rw [NFS.MixedDerivative.set_prefactors_flat, setLoop_length]
  · intro i hi
    have hi' : i < m.prefactors.length := by omega
    rw [NFS.MixedDerivative.set_prefactors_flat, List.getD_eq_getElem?_getD,
      setLoop_getElem?]
    simp [hi, List.getElem?_eq_getElem hi']
  · intro i hi
    have hni : ¬ i < factors.length := by omega
    rw [NFS.MixedDerivative.set_prefactors_flat, setLoop_getElem?, if_neg hni]

/-- Witness for C9: on a 2x2 instance with unit prefactors, the flat setter
with `[8, 9]` gives `[8, 9, 1, 1]`: length preserved, entry 1 overwritten to
9, entry 2 still the old `some 1`. -/
theorem claim_C9_flat_partial_overwrite_witness :
    (([8, 9] : List ℚ).length
        < (NFS.MixedDerivative.make ⟨2, id⟩ ⟨2, id⟩).prefactors.length) ∧
    (((NFS.MixedDerivative.make ⟨2, id⟩ ⟨2, id⟩).set_prefactors_flat
          [8, 9]).prefactors.length
        = (NFS.MixedDerivative.make ⟨2, id⟩ ⟨2, id⟩).prefactors.length ∧
      ((NFS.MixedDerivative.make ⟨2, id⟩ ⟨2, id⟩).set_prefactors_flat
          [8, 9]).prefactors.getD 1 0 = ([8, 9] : List ℚ).getD 1 0 ∧
      ((NFS.MixedDerivative.make ⟨2, id⟩ ⟨2, id⟩).set_prefactors_flat
          [8, 9]).prefactors[2]?
        = (NFS.MixedDerivative.make ⟨2, id⟩ ⟨2, id⟩).prefactors[2]?) :=
  ⟨by decide,
   (claim_C9_flat_partial_overwrite (NFS.MixedDerivative.make ⟨2, id⟩ ⟨2, id⟩)
      [8, 9] (by decide)).1,
   (claim_C9_flat_partial_overwrite (NFS.MixedDerivative.make ⟨2, id⟩ ⟨2, id⟩)
      [8, 9] (by decide)).2.1 1 (by decide),
   (claim_C9_flat_partial_overwrite (NFS.MixedDerivative.make ⟨2, id⟩ ⟨2, id⟩)
      [8, 9] (by decide)).2.2 2 (by decide)⟩

/-- Claim C1 (code bug): `set_prefactors(coef_x, coef_y)` as written assigns
`prefactors[i] = coef_x[i] * coef_y[j]` (its `index` counter is incremented
but never used), so on a 2x2 instance with `coef_x = [2, 3]`,
`coef_y = [5, 7]` the prefactor field ends as `[14, 21, 1, 1]`, not the
claimed outer product `[10, 14, 15, 21]`: at flattened index `0 * 2 + 1` the
code stores `21` where the claim requires `coef_x[0] * coef_y[1] = 14`. -/
theorem claim_C1_outer_product_code_eval :
    ((NFS.MixedDerivative.make ⟨2, id⟩ ⟨2, id⟩).set_prefactors_xy [2, 3]
        [5, 7]).prefactors = [14, 21, 1, 1] ∧
    ¬ (∀ ix : ℕ, ix < 2 → ∀ iy : ℕ, iy < 2 →
        ((NFS.MixedDerivative.make ⟨2, id⟩ ⟨2, id⟩).set_prefactors_xy [2, 3]
            [5, 7]).prefactors.getD (ix * 2 + iy) 0
          = ([2, 3] : List ℚ).getD ix 0 * ([5, 7] : List ℚ).getD iy 0) := by
  constructor
  · norm_num [NFS.MixedDerivative.set_prefactors_xy, NFS.MixedDerivative.make,
      NFS.outerXY, NFS.innerXY, List.replicate_succ]
  · intro hcl
    have h01 := hcl 0 (by decide) 1 (by decide)
    norm_num [NFS.MixedDerivative.set_prefactors_xy, NFS.MixedDerivative.make,
      NFS.outerXY, NFS.innerXY, List.replicate_succ] at h01

/-- Claim C3: for a field of length `n_x * n_y`, `d2dxdy` returns a field of
length `n_x * n_y` whose entry at each flattened index `i` is
`prefactors[i]` times the result of applying the y-axis operator along y and
then the x-axis operator along x. -/
theorem claim_C3_d2dxdy_action (m : NFS.MixedDerivative) (field : List ℚ)
    (hlen : field.length = m.d1dx1.order * m.d1dy1.order) :
    ∃ out, m.d2dxdy field = some out ∧
      out.length = m.d1dx1.order * m.d1dy1.order ∧
      ∀ i, i < m.d1dx1.order * m.d1dy1.order →
        out.getD i 0 = m.prefactors.getD i 0 *
          (NFS.applyAlongX m.d1dx1 m.d1dx1.order m.d1dy1.order
            (NFS.applyAlongY m.d1dy1 m.d1dx1.order m.d1dy1.order
              field)).getD i 0 := by
  refine ⟨(List.range (m.d1dx1.order * m.d1dy1.order)).map
      (fun i => (NFS.applyAlongX m.d1dx1 m.d1dx1.order m.d1dy1.order
          (NFS.applyAlongY m.d1dy1 m.d1dx1.order m.d1dy1.order
            field)).getD i 0 * m.prefactors.getD i 0), ?_, ?_, ?_⟩
  · simp only [NFS.MixedDerivative.d2dxdy]
    rw [if_pos hlen]
  · simp
  · intro i hi
    rw [List.getD_eq_getElem?_getD, List.getElem?_map, List.getElem?_range hi]
    simp [mul_comm]

/-- Witness for C3: a 2x2 instance with identity component operators applied
to the field `[1, 2, 3, 4]` (in bounds, so the claim's conclusion holds
there). -/
theorem claim_C3_d2dxdy_action_witness :
    (([1, 2, 3, 4] : List ℚ).length
        = (NFS.MixedDerivative.make ⟨2, id⟩ ⟨2, id⟩).d1dx1.order
          * (NFS.MixedDerivative.make ⟨2, id⟩ ⟨2, id⟩).d1dy1.order) ∧
    (∃ out, (NFS.MixedDerivative.make ⟨2, id⟩ ⟨2, id⟩).d2dxdy [1, 2, 3, 4]
        = some out ∧
      out.length = (NFS.MixedDerivative.make ⟨2, id⟩ ⟨2, id⟩).d1dx1.order
          * (NFS.MixedDerivative.make ⟨2, id⟩ ⟨2, id⟩).d1dy1.order ∧
      ∀ i, i < (NFS.MixedDerivative.make ⟨2, id⟩ ⟨2, id⟩).d1dx1.order
          * (NFS.MixedDerivative.make ⟨2, id⟩ ⟨2, id⟩).d1dy1.order →
        out.getD i 0
          = (NFS.MixedDerivative.make ⟨2, id⟩ ⟨2, id⟩).prefactors.getD i 0 *
            (NFS.applyAlongX (NFS.MixedDerivative.make ⟨2, id⟩ ⟨2, id⟩).d1dx1
              (NFS.MixedDerivative.make ⟨2, id⟩ ⟨2, id⟩).d1dx1.order
              (NFS.MixedDerivative.make ⟨2, id⟩ ⟨2, id⟩).d1dy1.order
              (NFS.applyAlongY
                (NFS.MixedDerivative.make ⟨2, id⟩ ⟨2, id⟩).d1dy1
                (NFS.MixedDerivative.make ⟨2, id⟩ ⟨2, id⟩).d1dx1.order
                (NFS.MixedDerivative.make ⟨2, id⟩ ⟨2, id⟩).d1dy1.order
                [1, 2, 3, 4])).getD i 0) :=
  ⟨by decide,
   claim_C3_d2dxdy_action (NFS.MixedDerivative.make ⟨2, id⟩ ⟨2, id⟩)
     [1, 2, 3, 4] (by decide)⟩

/-- Claim C4: `d2dxdy` on a field whose length differs from `n_x * n_y`
signals a contract violation (modelled as `none`) instead of returning a
numeric result. -/
theorem claim_C4_d2dxdy_precondition (m : NFS.MixedDerivative)
    (field : List ℚ)
    (hne : field.length ≠ m.d1dx1.order * m.d1dy1.order) :
    m.d2dxdy field = none := by
  simp only [NFS.MixedDerivative.d2dxdy]
  rw [if_neg hne]

/-- Witness for C4: a 2x2 instance rejects the length-3 field `[1, 2, 3]`. -/
theorem claim_C4_d2dxdy_precondition_witness :
    (([1, 2, 3] : List ℚ).length
        ≠ (NFS.MixedDerivative.make ⟨2, id⟩ ⟨2, id⟩).d1dx1.order
          * (NFS.MixedDerivative.make ⟨2, id⟩ ⟨2, id⟩).d1dy1.order) ∧
    (NFS.MixedDerivative.make ⟨2, id⟩ ⟨2, id⟩).d2dxdy [1, 2, 3] = none :=
  ⟨by decide,
   claim_C4_d2dxdy_precondition (NFS.MixedDerivative.make ⟨2, id⟩ ⟨2, id⟩)
     [1, 2, 3] (by decide)⟩

/-! ### Frame lemmas for the prefactor setters -/

theorem applySet_d1dx1 (m : NFS.MixedDerivative) (c : NFS.SetCmd) :
    (NFS.applySet m c).d1dx1 = m.d1dx1 := by
  cases c <;> rfl

theorem applySet_d1dy1 (m : NFS.MixedDerivative) (c : NFS.SetCmd) :
    (NFS.applySet m c).d1dy1 = m.d1dy1 := by
  cases c <;> rfl

theorem foldl_applySet_d1dx1 (cmds : List NFS.SetCmd) :
    ∀ m : NFS.MixedDerivative,
      (cmds.foldl NFS.applySet m).d1dx1 = m.d1dx1 := by
  induction cmds with
  | nil => intro m; rfl
  | cons c cs ih => intro m; rw [List.foldl_cons, ih, applySet_d1dx1]

theorem foldl_applySet_d1dy1 (cmds : List NFS.SetCmd) :
    ∀ m : NFS.MixedDerivative,
      (cmds.foldl NFS.applySet m).d1dy1 = m.d1dy1 := by
  induction cmds with
  | nil => intro m; rfl
  | cons c cs ih => intro m; rw [List.foldl_cons, ih, applySet_d1dy1]

theorem withUnitPrefactors_congr (a b : NFS.MixedDerivative)
    (hx : a.d1dx1 = b.d1dx1) (hy : a.d1dy1 = b.d1dy1) :
    NFS.withUnitPrefactors a = NFS.withUnitPrefactors b := by
  unfold NFS.withUnitPrefactors
  rw [hx, hy]

/-- Claim C6: every sequence of `set_prefactors` calls leaves the two stored
1-D operators unchanged, and hence `d2dxdy` with the prefactor field reset to
all ones computes the same underlying derivative action before and after. -/
theorem claim_C6_set_prefactors_frame (m : NFS.MixedDerivative)
    (cmds : List NFS.SetCmd) :
    (cmds.foldl NFS.applySet m).d1dx1 = m.d1dx1 ∧
    (cmds.foldl NFS.applySet m).d1dy1 = m.d1dy1 ∧
    ∀ field : List ℚ,
      (NFS.withUnitPrefactors (cmds.foldl NFS.applySet m)).d2dxdy field
        = (NFS.withUnitPrefactors m).d2dxdy field :=
  ⟨foldl_applySet_d1dx1 cmds m, foldl_applySet_d1dy1 cmds m,
   fun field => by
     rw [withUnitPrefactors_congr (cmds.foldl NFS.applySet m) m
       (foldl_applySet_d1dx1 cmds m) (foldl_applySet_d1dy1 cmds m)]⟩

/-- Claim C7: `d1dx1::uniform::c2b1` on the grid `[0, 1, 2, 3, 4]` applied to
`v = [0, 1, 4, 9, 16]` gives entry 0 equal to `(v[1] - v[0]) / 1 = 1`,
entry 2 equal to `(v[3] - v[1]) / 2 = 4`, and entry 4 (backward one-sided
difference) equal to `(v[4] - v[3]) / 1 = 7`. -/
theorem claim_C7_c2b1_scenario :
    ((NFS.d1dx1.uniform.c2b1 [0, 1, 2, 3, 4]).action
        [0, 1, 4, 9, 16]).getD 0 0 = 1 ∧
    ((NFS.d1dx1.uniform.c2b1 [0, 1, 2, 3, 4]).action
        [0, 1, 4, 9, 16]).getD 2 0 = 4 ∧
    ((NFS.d1dx1.uniform.c2b1 [0, 1, 2, 3, 4]).action
        [0, 1, 4, 9, 16]).getD 4 0 = 7 := by
  norm_num [NFS.d1dx1.uniform.c2b1, List.range_succ]
